import Mathlib

/-!
Verification of the batch annotation request handler
(`src/app/api/generate/route.ts`).

The handler is embedded shallowly: pure helpers of the route become Lean
functions; the two external network operations (asset upload, content
generation) and the filesystem staging step are modelled by per-item outcome
oracles (`ItemEnv`), since the route only observes their results.  JavaScript
strings are modelled by Lean `String`, `JSON.parse` by an executable JSON
reader over the JSON grammar (numbers are kept as their literal text: the
route never uses a parsed number numerically), and `undefined`/optional
fields by `Option`.
-/

/-- JSON values as produced by `JSON.parse`.  Number literals are kept as
their source text: the route only ever asks `typeof v === "string"` /
`Array.isArray` style questions of parsed values, never their numeric
value. -/
inductive Json where
  | null : Json
  | bool (b : Bool) : Json
  | num (lit : String) : Json
  | str (s : String) : Json
  | arr (elems : List Json) : Json
  | obj (fields : List (String × Json)) : Json
deriving Repr

/-- JSON grammar whitespace (the only characters `JSON.parse` skips). -/
def isJsonWs (c : Char) : Bool :=
  c = ' ' ∨ c = '\t' ∨ c = '\n' ∨ c = '\r'

def skipWs : List Char → List Char
  | [] => []
  | c :: r => if isJsonWs c then skipWs r else c :: r

def hexVal (c : Char) : Option Nat :=
  if '0' ≤ c ∧ c ≤ '9' then some (c.toNat - '0'.toNat)
  else if 'a' ≤ c ∧ c ≤ 'f' then some (c.toNat - 'a'.toNat + 10)
  else if 'A' ≤ c ∧ c ≤ 'F' then some (c.toNat - 'A'.toNat + 10)
  else none

/-- Body of a JSON string literal (after the opening quote).  `\uXXXX`
escapes denoting UTF-16 surrogates are not modelled (a Lean `Char` cannot
hold a lone surrogate); no theorem below depends on such inputs. -/
def parseJStr (acc : List Char) : List Char → Option (String × List Char)
  | [] => none
  | '"' :: rest => some (String.mk acc.reverse, rest)
  | '\\' :: 'u' :: a :: b :: c :: d :: rest =>
    match hexVal a, hexVal b, hexVal c, hexVal d with
    | some ha, some hb, some hc, some hd =>
      let n := ((ha * 16 + hb) * 16 + hc) * 16 + hd
      if n < 0xd800 then parseJStr (Char.ofNat n :: acc) rest
      else if 0xdfff < n then parseJStr (Char.ofNat n :: acc) rest
      else none
    | _, _, _, _ => none
  | '\\' :: e :: rest =>
    if e = '"' then parseJStr ('"' :: acc) rest
    else if e = '\\' then parseJStr ('\\' :: acc) rest
    else if e = '/' then parseJStr ('/' :: acc) rest
    else if e = 'b' then parseJStr ('\x08' :: acc) rest
    else if e = 'f' then parseJStr ('\x0c' :: acc) rest
    else if e = 'n' then parseJStr ('\n' :: acc) rest
    else if e = 'r' then parseJStr ('\r' :: acc) rest
    else if e = 't' then parseJStr ('\t' :: acc) rest
    else none
  | c :: rest =>
    if c.toNat < 0x20 then none else parseJStr (c :: acc) rest

/-- Leading run of decimal digits, returned in order with the rest. -/
def scanDigitsFwd : List Char → List Char × List Char
  | [] => ([], [])
  | c :: r =>
    if c.isDigit then
      let (ds, rest) := scanDigitsFwd r
      (c :: ds, rest)
    else ([], c :: r)

/-- Optional fraction part of a JSON number (`.` followed by one or more
digits). -/
def parseFrac : List Char → Option (List Char × List Char)
  | '.' :: r =>
    match scanDigitsFwd r with
    | ([], _) => none
    | (ds, rest) => some ('.' :: ds, rest)
  | cs => some ([], cs)

/-- Optional exponent part of a JSON number. -/
def parseExp : List Char → Option (List Char × List Char)
  | [] => some ([], [])
  | e :: r =>
    if e = 'e' ∨ e = 'E' then
      let (sn, r2) : List Char × List Char :=
        match r with
        | '+' :: r2 => (['+'], r2)
        | '-' :: r2 => (['-'], r2)
        | _ => ([], r)
      match scanDigitsFwd r2 with
      | ([], _) => none
      | (ds, rest) => some (e :: (sn ++ ds), rest)
    else some ([], e :: r)

/-- A JSON number token per the JSON grammar (`-?(0|[1-9][0-9]*)` with
optional fraction and exponent), returned as its literal text. -/
def parseJNum (cs : List Char) : Option (String × List Char) :=
  let (sign, s1) : List Char × List Char :=
    match cs with
    | '-' :: r => (['-'], r)
    | _ => ([], cs)
  match s1 with
  | [] => none
  | c :: r =>
    if c.isDigit then
      let (ip, s2) : List Char × List Char :=
        if c = '0' then ([c], r) else scanDigitsFwd (c :: r)
      match parseFrac s2 with
      | none => none
      | some (fp, s3) =>
        match parseExp s3 with
        | none => none
        | some (ep, s4) => some (String.mk (sign ++ ip ++ fp ++ ep), s4)
    else none

mutual

/-- One JSON value, fuel-bounded recursive descent (`fuel` bounds the
nesting/element recursion; `jsonParse` supplies enough for any input of the
given length). -/
def parseVal : Nat → List Char → Option (Json × List Char)
  | 0, _ => none
  | fuel + 1, cs =>
    match skipWs cs with
    | [] => none
    | 'n' :: 'u' :: 'l' :: 'l' :: rest => some (Json.null, rest)
    | 't' :: 'r' :: 'u' :: 'e' :: rest => some (Json.bool true, rest)
    | 'f' :: 'a' :: 'l' :: 's' :: 'e' :: rest => some (Json.bool false, rest)
    | '"' :: rest => (parseJStr [] rest).map (fun p => (Json.str p.1, p.2))
    | '[' :: rest =>
      match skipWs rest with
      | ']' :: r2 => some (Json.arr [], r2)
      | cs2 => parseArrElems fuel cs2 []
    | '\x7b' :: rest =>
      match skipWs rest with
      | '\x7d' :: r2 => some (Json.obj [], r2)
      | cs2 => parseObjMembers fuel cs2 []
    | cs2 => (parseJNum cs2).map (fun p => (Json.num p.1, p.2))

/-- Comma-separated array elements, then `]`. -/
def parseArrElems : Nat → List Char → List Json → Option (Json × List Char)
  | 0, _, _ => none
  | fuel + 1, cs, acc =>
    match parseVal fuel cs with
    | none => none
    | some (v, rest) =>
      match skipWs rest with
      | ',' :: r2 => parseArrElems fuel r2 (v :: acc)
      | ']' :: r2 => some (Json.arr (v :: acc).reverse, r2)
      | _ => none

/-- Comma-separated `"key": value` members, then the closing brace. -/
def parseObjMembers : Nat → List Char → List (String × Json) → Option (Json × List Char)
  | 0, _, _ => none
  | fuel + 1, cs, acc =>
    match skipWs cs with
    | '"' :: r =>
      match parseJStr [] r with
      | none => none
      | some (k, r2) =>
        match skipWs r2 with
        | ':' :: r3 =>
          match parseVal fuel r3 with
          | none => none
          | some (v, r4) =>
            match skipWs r4 with
            | ',' :: r5 => parseObjMembers fuel r5 ((k, v) :: acc)
            | '\x7d' :: r5 => some (Json.obj ((k, v) :: acc).reverse, r5)
            | _ => none
        | _ => none
    | _ => none

end

/-- Model of `JSON.parse`: `none` when the JavaScript call throws. -/
def jsonParse (s : String) : Option Json :=
  match parseVal (2 * s.length + 4) s.toList with
  | none => none
  | some (v, rest) => if skipWs rest = [] then some v else none

/-- The WhiteSpace/LineTerminator set used by JavaScript `String.trim` and
by the `\s` regex class. -/
def isJsWsChar (c : Char) : Bool :=
  c = '\t' ∨ c = '\n' ∨ c = '\x0b' ∨ c = '\x0c' ∨ c = '\r' ∨ c = ' ' ∨
  c = '\u00A0' ∨ c = '\u1680' ∨ ('\u2000' ≤ c ∧ c ≤ '\u200A') ∨
  c = '\u2028' ∨ c = '\u2029' ∨ c = '\u202F' ∨ c = '\u205F' ∨
  c = '\u3000' ∨ c = '\uFEFF'

/-- JavaScript `String.prototype.trim`. -/
def jsTrim (s : String) : String :=
  String.mk (((s.toList.dropWhile isJsWsChar).reverse.dropWhile isJsWsChar).reverse)

/-- Separator class of the key-splitting regex in `getEnvKeys`:
comma, semicolon, or whitespace. -/
def isEnvSep (c : Char) : Bool :=
  c = ',' ∨ c = ';' ∨ isJsWsChar c

/-- `String.prototype.split` on a regex matching one-or-more separator
characters: splits on maximal separator runs, keeping empty fields at the
boundaries exactly as JavaScript does. -/
def goSplit (p : Char → Bool) : List Char → List Char → Bool → List String
  | [], acc, inSep => if inSep then [""] else [String.mk acc.reverse]
  | c :: cs, acc, inSep =>
    if p c then
      if inSep then goSplit p cs acc true
      else String.mk acc.reverse :: goSplit p cs [] true
    else goSplit p cs (c :: acc) false

def splitSepRuns (p : Char → Bool) (s : String) : List String :=
  goSplit p s.toList [] false

/-- `getEnvKeys` (route.ts lines 27-39): join the two env variables with a
comma, split on comma/semicolon/whitespace runs, trim, and drop blanks.
The two environment variables are inputs of the model. -/
def getEnvKeys (googleApiKeys googleApiKey : Option String) : List String :=
  let raw := String.intercalate ","
    (([googleApiKeys.getD "", googleApiKey.getD ""]).filter (fun s => s ≠ ""))
  ((splitSepRuns isEnvSep raw).map jsTrim).filter (fun s => s ≠ "")

/-- `parseClientKeys` (route.ts lines 41-52): a missing or empty field, a
JSON decode failure, or a non-array decode yield `[]`; in an array,
non-string entries become `""` and blanks are filtered out. -/
def parseClientKeys (raw : Option String) : List String :=
  match raw with
  | none => []
  | some s =>
    if s = "" then []
    else
      match jsonParse s with
      | none => []
      | some (Json.arr elems) =>
        (elems.map (fun j => match j with
          | Json.str k => jsTrim k
          | _ => "")).filter (fun s => s ≠ "")
      | some _ => []

/-- `EnvVars`: the two operator-level credential variables
(`GOOGLE_API_KEYS`, `GOOGLE_API_KEY`). -/
structure EnvVars where
  googleApiKeys : Option String
  googleApiKey : Option String

/-- `allKeys` (route.ts lines 99-102): environment keys followed by
caller-supplied keys. -/
def allKeys (envv : EnvVars) (apiKeysField : Option String) : List String :=
  getEnvKeys envv.googleApiKeys envv.googleApiKey ++ parseClientKeys apiKeysField

/-- `pickKey` (route.ts lines 54-55).  `Math.random()` is modelled by an
abstract draw `r`; the selected key only parameterizes the external calls,
whose results the per-item oracle supplies. -/
def pickKey (keys : List String) (r : Nat) : Option String :=
  keys.get? (r % keys.length)

/-- One uploaded `File` as the route observes it: its `name` and its
`type` (browser-supplied media type, possibly the empty string).  The raw
bytes are only handed to the staging/upload oracles. -/
structure FileData where
  name : String
  type : String
deriving DecidableEq

/-- A thrown JavaScript value: an `Error` with its `message`, or any
non-`Error` value (the route only distinguishes these two cases). -/
inductive Thrown where
  | err (msg : String) : Thrown
  | nonErr : Thrown
deriving DecidableEq

/-- `error instanceof Error ? error.message : "เกิดข้อผิดพลาด"`
(route.ts line 161). -/
def thrownMessage : Thrown → String
  | Thrown.err m => m
  | Thrown.nonErr => "เกิดข้อผิดพลาด"

/-- The `file` member of an `UploadResponse`.  The TypeScript type declares
`uri`/`mimeType` as required strings, but the route's own runtime check
(line 138) treats them as possibly missing, so they are modelled as
optional. -/
structure FileRef where
  uri : Option String
  mimeType : Option String
deriving DecidableEq

/-- `UploadResponse` (route.ts lines 12-16): wrapped shape (`file`) or flat
shape (`uri`/`mimeType` at top level). -/
structure UploadResponse where
  file : Option FileRef
  uri : Option String
  mimeType : Option String
deriving DecidableEq

/-- The `text` member of a Gemini response: a plain string, or a callable
accessor (modelled by the string it returns). -/
inductive TextField where
  | strVal (s : String) : TextField
  | fnVal (s : String) : TextField
deriving DecidableEq

structure GeminiContentPart where
  text : Option String
deriving DecidableEq

structure GeminiContent where
  parts : Option (List GeminiContentPart)
deriving DecidableEq

structure GeminiCandidate where
  content : Option GeminiContent
deriving DecidableEq

structure ResponseEnvelope where
  candidates : Option (List GeminiCandidate)
deriving DecidableEq

/-- `GeminiResponse` (route.ts lines 21-25). -/
structure GeminiResponse where
  text : Option TextField
  response : Option ResponseEnvelope
  candidates : Option (List GeminiCandidate)
deriving DecidableEq

/-- `candidates?.[0]?.content?.parts` (one optional-chaining branch of
`ensureText`). -/
def candidateParts (cs : Option (List GeminiCandidate)) : Option (List GeminiContentPart) :=
  ((cs.bind fun l => l.head?).bind fun c => c.content).bind fun ct => ct.parts

/-- `ensureText` (route.ts lines 57-69): direct string, callable accessor,
or nested fragments under `response.candidates` / `candidates`; fragments
are newline-joined after dropping falsy (empty) ones; everything else gives
`""`. -/
def ensureText (r : Option GeminiResponse) : String :=
  match r with
  | none => ""
  | some resp =>
    match resp.text with
    | some (TextField.fnVal s) => s
    | some (TextField.strVal s) => s
    | none =>
      let parts :=
        ((candidateParts (resp.response.bind fun e => e.candidates)).orElse
          (fun _ => candidateParts resp.candidates)).getD []
      String.intercalate "\n"
        ((parts.map (fun part => part.text.getD "")).filter (fun s => s ≠ ""))

/-- JavaScript bracket access `v[i]` on a parsed JSON value, as used by
`prompts[index]`: `none` models the `TypeError` thrown when the base itself
is `null` (property access on `null` throws); `some none` models
`undefined`; otherwise the array element, single-character string, or
numeric-string object key.  Duplicate JSON object keys keep the last
occurrence, as `JSON.parse` does. -/
def jsIndex : Json → Nat → Option (Option Json)
  | Json.null, _ => none
  | Json.arr xs, i => some (xs.get? i)
  | Json.str s, i => some ((s.toList.get? i).map (fun c => Json.str (String.mk [c])))
  | Json.obj fs, i => some ((fs.reverse.find? (fun p => p.1 = toString i)).map (fun p => p.2))
  | _, _ => some none

/-- `prompts[index]?.trim() || defaultPrompt` (route.ts line 120).
`none` models the `TypeError` thrown (outside the per-item `try`) either
when `prompts` itself decoded to `null`, or when the indexed value is
present, non-nullish and not a string. -/
def resolvePrompt (pj : Json) (i : Nat) (dflt : String) : Option String :=
  match jsIndex pj i with
  | none => none
  | some none => some dflt
  | some (some Json.null) => some dflt
  | some (some (Json.str s)) => some (if jsTrim s = "" then dflt else jsTrim s)
  | some (some _) => none

/-- `(field as string)?.trim() || literal` (route.ts lines 94-97), used for
`defaultPrompt` and `model`. -/
def resolveField (field : Option String) (dflt : String) : String :=
  match field with
  | none => dflt
  | some s => if jsTrim s = "" then dflt else jsTrim s

/-- Per-item outcomes of the effectful steps, supplied as an oracle: the
staging write (`arrayBuffer` + `writeFile`), the upload call, the
generation call, and whether the final `unlink` succeeds.  `uuid` is the
`randomUUID()` drawn for the staging file name.  The API key drawn by
`pickKey` and the `model` string parameterize only these external calls, so
they do not appear separately. -/
structure ItemEnv where
  uuid : String
  stage : Except Thrown Unit
  upload : Except Thrown UploadResponse
  gen : Except Thrown (Option GeminiResponse)
  unlinkOk : Bool

/-- `ResultEntry` (route.ts lines 111-116). -/
structure ResultEntry where
  filename : String
  prompt : String
  text : Option String
  error : Option String
deriving DecidableEq

/-- A per-item failure entry (route.ts lines 157-162). -/
def errEntry (name prompt : String) (t : Thrown) : ResultEntry :=
  { filename := name, prompt := prompt, text := none, error := some (thrownMessage t) }

/-- Message of the `Error` thrown when the upload response lacks a usable
reference (route.ts line 139). -/
def uploadFailMsg : String := "ไม่สามารถอัปโหลดไฟล์ไปยัง Gemini ได้"

/-- `upload.file ?? { uri: upload.uri, mimeType: upload.mimeType ?? file.type }`
(route.ts lines 133-136). -/
def mkFileRef (up : UploadResponse) (fileType : String) : FileRef :=
  match up.file with
  | some fr => fr
  | none =>
    { uri := up.uri,
      mimeType := some (match up.mimeType with | some m => m | none => fileType) }

/-- JavaScript truthiness of an optional string (`undefined` and `""` are
falsy). -/
def truthyOpt : Option String → Bool
  | none => false
  | some s => s ≠ ""

/-- `!fileRef?.uri || !fileRef?.mimeType` negated (route.ts line 138). -/
def refUsable (fr : FileRef) : Bool :=
  truthyOpt fr.uri && truthyOpt fr.mimeType

/-- The `try`-block body of one loop iteration (route.ts lines 123-162),
already past prompt resolution: the entry pushed for this item. -/
def itemEntry (file : FileData) (prompt : String) (env : ItemEnv) : ResultEntry :=
  match env.stage with
  | Except.error t => errEntry file.name prompt t
  | Except.ok _ =>
    match env.upload with
    | Except.error t => errEntry file.name prompt t
    | Except.ok up =>
      let fileRef := mkFileRef up file.type
      if refUsable fileRef then
        match env.gen with
        | Except.error t => errEntry file.name prompt t
        | Except.ok resp =>
          { filename := file.name, prompt := prompt,
            text := some (ensureText resp), error := none }
      else errEntry file.name prompt (Thrown.err uploadFailMsg)

/-- Staging path `path.join(tmpdir(), uuid-name)` (route.ts line 121);
`tmpdir()` is modelled as the constant `/tmp`. -/
def tmpPathOf (uuid name : String) : String := "/tmp/" ++ uuid ++ "-" ++ name

/-- Filesystem events of one iteration, for the cleanup property. -/
inductive FsEvent where
  | write (path : String) : FsEvent
  | unlink (path : String) : FsEvent
deriving DecidableEq

/-- One loop iteration (route.ts lines 118-165): entry produced (or `none`
when prompt resolution throws, which aborts the whole handler) together
with the filesystem events.  The `finally` clause unlinks the staging path
in every branch that reached the `try`. -/
def processItem (pj : Json) (dflt : String) (i : Nat) (file : FileData)
    (env : ItemEnv) : Option ResultEntry × List FsEvent :=
  match resolvePrompt pj i dflt with
  | none => (none, [])
  | some prompt =>
    let tempPath := tmpPathOf env.uuid file.name
    match env.stage with
    | Except.error _ => (some (itemEntry file prompt env), [FsEvent.unlink tempPath])
    | Except.ok _ =>
      (some (itemEntry file prompt env),
        [FsEvent.write tempPath, FsEvent.unlink tempPath])

/-- The sequential `for` loop (route.ts lines 118-166): one entry per file
in order, stopping with `none` if an iteration throws outside its `try`. -/
def runLoop (pj : Json) (dflt : String) (envs : Nat → ItemEnv) :
    Nat → List FileData → Option (List ResultEntry) × List FsEvent
  | _, [] => (some [], [])
  | i, f :: fs =>
    let pr := processItem pj dflt i f (envs i)
    match pr.1 with
    | none => (none, pr.2)
    | some e =>
      let rest := runLoop pj dflt envs (i + 1) fs
      (rest.1.map (fun l => e :: l), pr.2 ++ rest.2)

/-- The incoming multipart form, after the `File` filter on `images`:
every field the route reads. -/
structure RequestData where
  files : List FileData
  promptsField : Option String
  defaultPromptField : Option String
  modelField : Option String
  apiKeysField : Option String

/-- Outcome of the handler: a 400 error body, a 200 body with the results
array, or an unhandled exception (surfaced by the framework as a 500). -/
inductive HandlerResult where
  | badRequest (errorMsg : String) : HandlerResult
  | ok (results : List ResultEntry) : HandlerResult
  | crash : HandlerResult
deriving DecidableEq

def noImagesMsg : String := "ต้องอัปโหลดรูปอย่างน้อย 1 รูป"

def malformedPromptsMsg : String := "รูปแบบข้อมูล prompt ไม่ถูกต้อง"

def noKeysMsg : String := "ไม่พบ API key กรุณากำหนดใน .env หรือฟอร์ม"

def dfltPromptLit : String := "บรรยายรายละเอียดของภาพนี้"

/-- The `POST` handler (route.ts lines 71-169).  The resolved `model`
string is passed only to the external generation call, which the oracle
models, so it is not bound here. -/
def POST (envv : EnvVars) (req : RequestData) (envs : Nat → ItemEnv) : HandlerResult :=
  if req.files = [] then HandlerResult.badRequest noImagesMsg
  else
    match jsonParse (req.promptsField.getD "[]") with
    | none => HandlerResult.badRequest malformedPromptsMsg
    | some promptsJson =>
      let dflt := resolveField req.defaultPromptField dfltPromptLit
      let keys := allKeys envv req.apiKeysField
      if keys = [] then HandlerResult.badRequest noKeysMsg
      else
        match (runLoop promptsJson dflt envs 0 req.files).1 with
        | none => HandlerResult.crash
        | some rs => HandlerResult.ok rs

/-- The effective prompt of item `i` as a function of the decoded prompt
list: the trimmed item prompt when non-blank, otherwise the batch
default. -/
def effectivePrompt (ss : List String) (i : Nat) (dflt : String) : String :=
  match ss.get? i with
  | some s => if jsTrim s = "" then dflt else jsTrim s
  | none => dflt

lemma resolvePrompt_strings (ss : List String) (i : Nat) (dflt : String) :
    resolvePrompt (Json.arr (ss.map Json.str)) i dflt = some (effectivePrompt ss i dflt) := by
  unfold resolvePrompt effectivePrompt
  simp only [jsIndex, List.get?_eq_getElem?, List.getElem?_map]
  cases h : ss[i]? <;> simp [h]

lemma processItem_fst (pj : Json) (dflt : String) (i : Nat) (f : FileData) (env : ItemEnv) :
    (processItem pj dflt i f env).1
      = (resolvePrompt pj i dflt).map (fun p => itemEntry f p env) := by
  unfold processItem
  cases resolvePrompt pj i dflt with
  | none => rfl
  | some p => cases hst : env.stage <;> simp [hst]

lemma itemEntry_shape (f : FileData) (p : String) (env : ItemEnv) :
    (itemEntry f p env).filename = f.name ∧ (itemEntry f p env).prompt = p ∧
      (((itemEntry f p env).text.isSome ∧ (itemEntry f p env).error = none) ∨
        ((itemEntry f p env).text = none ∧ (itemEntry f p env).error.isSome)) := by
  obtain ⟨u, st, up, g, o⟩ := env
  unfold itemEntry
  cases st with
  | error t => simp [errEntry]
  | ok _ =>
    cases up with
    | error t => simp [errEntry]
    | ok upr =>
      by_cases h : refUsable (mkFileRef upr f.type) = true
      · simp only [h, if_true]
        cases g with
        | error t => simp [errEntry]
        | ok resp => simp
      · simp [h, errEntry]

lemma runLoop_fst_cons_none (pj : Json) (dflt : String) (envs : Nat → ItemEnv)
    (k : Nat) (f : FileData) (fs : List FileData)
    (hr : resolvePrompt pj k dflt = none) :
    (runLoop pj dflt envs k (f :: fs)).1 = none := by
  simp [runLoop, processItem_fst, hr]

lemma runLoop_fst_cons_some (pj : Json) (dflt : String) (envs : Nat → ItemEnv)
    (k : Nat) (f : FileData) (fs : List FileData) (p : String)
    (hr : resolvePrompt pj k dflt = some p) :
    (runLoop pj dflt envs k (f :: fs)).1
      = ((runLoop pj dflt envs (k + 1) fs).1).map (fun l => itemEntry f p (envs k) :: l) := by
  simp [runLoop, processItem_fst, hr]

lemma runLoop_arr_strings (ss : List String) (dflt : String) (envs : Nat → ItemEnv) :
    ∀ (files : List FileData) (k : Nat),
      ∃ rs, (runLoop (Json.arr (ss.map Json.str)) dflt envs k files).1 = some rs ∧
        rs.map ResultEntry.filename = files.map FileData.name ∧
        rs.map ResultEntry.prompt
          = (List.range' k files.length).map (fun j => effectivePrompt ss j dflt) := by
  intro files
  induction files with
  | nil => exact fun k => ⟨[], by simp [runLoop]⟩
  | cons f fs ih =>
    intro k
    obtain ⟨rs, h1, h2, h3⟩ := ih (k + 1)
    refine ⟨itemEntry f (effectivePrompt ss k dflt) (envs k) :: rs, ?_, ?_, ?_⟩
    · rw [runLoop_fst_cons_some _ _ _ _ _ _ _ (resolvePrompt_strings ss k dflt), h1]
      rfl
    · simp [h2, (itemEntry_shape f _ (envs k)).1]
    · rw [List.length_cons, List.range'_succ, List.map_cons, List.map_cons,
        (itemEntry_shape f _ (envs k)).2.1, h3]

lemma runLoop_agree (pj : Json) (dflt : String) (envs envs' : Nat → ItemEnv) (i : Nat)
    (h : ∀ j, j ≠ i → envs j = envs' j) :
    ∀ (files : List FileData) (k : Nat),
      ((runLoop pj dflt envs k files).1 = none ↔ (runLoop pj dflt envs' k files).1 = none) ∧
      ∀ rs rs', (runLoop pj dflt envs k files).1 = some rs →
        (runLoop pj dflt envs' k files).1 = some rs' →
        rs.length = rs'.length ∧ ∀ j, k + j ≠ i → rs.get? j = rs'.get? j := by
  intro files
  induction files with
  | nil =>
    intro k
    refine ⟨by simp [runLoop], ?_⟩
    intro rs rs' hrs hrs'
    simp only [runLoop] at hrs hrs'
    cases hrs
    cases hrs'
    simp
  | cons f fs ih =>
    intro k
    obtain ⟨ih1, ih2⟩ := ih (k + 1)
    cases hr : resolvePrompt pj k dflt with
    | none =>
      have e1 : (runLoop pj dflt envs k (f :: fs)).1 = none := by
        simp [runLoop, processItem_fst, hr]
      have e2 : (runLoop pj dflt envs' k (f :: fs)).1 = none := by
        simp [runLoop, processItem_fst, hr]
      refine ⟨by simp [e1, e2], ?_⟩
      intro rs rs' hrs hrs'
      rw [e1] at hrs
      cases hrs
    | some p =>
      have e1 : (runLoop pj dflt envs k (f :: fs)).1
          = ((runLoop pj dflt envs (k + 1) fs).1).map
              (fun l => itemEntry f p (envs k) :: l) := by
        simp [runLoop, processItem_fst, hr]
      have e2 : (runLoop pj dflt envs' k (f :: fs)).1
          = ((runLoop pj dflt envs' (k + 1) fs).1).map
              (fun l => itemEntry f p (envs' k) :: l) := by
        simp [runLoop, processItem_fst, hr]
      constructor
      · rw [e1, e2]
        rcases ho : (runLoop pj dflt envs (k + 1) fs).1 with _ | rs0
        · have := ih1.mp ho
          simp [this]
        · rcases ho' : (runLoop pj dflt envs' (k + 1) fs).1 with _ | rs0'
          · have := ih1.mpr ho'
            rw [this] at ho
            cases ho
          · simp
      · intro rs rs' hrs hrs'
        rw [e1] at hrs
        rw [e2] at hrs'
        rcases ho : (runLoop pj dflt envs (k + 1) fs).1 with _ | rs0
        · rw [ho] at hrs
          cases hrs
        · rcases ho' : (runLoop pj dflt envs' (k + 1) fs).1 with _ | rs0'
          · have := ih1.mpr ho'
            rw [this] at ho
            cases ho
          · rw [ho] at hrs
            rw [ho'] at hrs'
            simp only [Option.map_some'] at hrs hrs'
            cases hrs
            cases hrs'
            obtain ⟨hl, hget⟩ := ih2 rs0 rs0' ho ho'
            refine ⟨by simp [hl], ?_⟩
            intro j hj
            cases j with
            | zero =>
              have hk : k ≠ i := by simpa using hj
              rw [h k hk]
              rfl
            | succ j' =>
              have hj' : (k + 1) + j' ≠ i := by omega
              simpa using hget j' hj'

lemma processItem_unlink (pj : Json) (dflt : String) (i : Nat) (f : FileData)
    (env : ItemEnv) (b : Bool) :
    processItem pj dflt i f { env with unlinkOk := b } = processItem pj dflt i f env := by
  obtain ⟨u, st, up, g, o⟩ := env
  rfl

lemma runLoop_unlink (pj : Json) (dflt : String) (envs : Nat → ItemEnv) (b : Nat → Bool) :
    ∀ (files : List FileData) (k : Nat),
      runLoop pj dflt (fun j => { envs j with unlinkOk := b j }) k files
        = runLoop pj dflt envs k files := by
  intro files
  induction files with
  | nil => intro k; rfl
  | cons f fs ih => intro k; simp only [runLoop, processItem_unlink, ih]

lemma POST_unlink (envv : EnvVars) (req : RequestData) (envs : Nat → ItemEnv) (b : Nat → Bool) :
    POST envv req (fun j => { envs j with unlinkOk := b j }) = POST envv req envs := by
  unfold POST
  rcases hj : jsonParse (req.promptsField.getD "[]") with _ | pj
  · simp [hj]
  · simp [hj, runLoop_unlink]

/-- A fixture oracle where every external step of an item succeeds. -/
def envOkFixture : ItemEnv :=
  ⟨"u1", Except.ok (), Except.ok ⟨none, some "gs://asset", some "image/png"⟩,
    Except.ok (some ⟨some (TextField.strVal "A trumpet"), none, none⟩), true⟩

/-- A fixture oracle whose upload call throws. -/
def envFailFixture : ItemEnv :=
  ⟨"u2", Except.ok (), Except.error (Thrown.err "boom"), Except.ok none, true⟩

/-- C1 counterexample: with `GOOGLE_API_KEYS = "a,a"` and no caller keys,
the assembled pool is `["a", "a"]`, which contains a duplicate token: the
pool is a plain concatenation, not a deduplicated union. -/
theorem c1_pool_counterexample :
    allKeys ⟨some "a,a", none⟩ none = ["a", "a"] ∧
      ¬ (allKeys ⟨some "a,a", none⟩ none).Nodup := by
  exact ⟨rfl, by decide⟩

lemma parseClientKeys_no_blank (ck : Option String) (k : String)
    (hk : k ∈ parseClientKeys ck) : k ≠ "" := by
  rcases ck with _ | sck
  · simp [parseClientKeys] at hk
  · by_cases hs : sck = ""
    · simp [parseClientKeys, hs] at hk
    · rcases hj : jsonParse sck with _ | j
      · simp [parseClientKeys, hs, hj] at hk
      · cases j with
        | arr elems =>
          simp [parseClientKeys, hs, hj, List.mem_filter, decide_eq_true_eq] at hk
          exact hk.2
        | null => simp [parseClientKeys, hs, hj] at hk
        | bool b => simp [parseClientKeys, hs, hj] at hk
        | num l => simp [parseClientKeys, hs, hj] at hk
        | str s => simp [parseClientKeys, hs, hj] at hk
        | obj fs => simp [parseClientKeys, hs, hj] at hk

/-- C1 (amended): the credential pool is the concatenation — without
deduplication — of the environment-derived tokens and the caller-supplied
JSON-array string tokens; blank entries and non-string entries are dropped
silently, so every pool entry is a non-blank string. -/
theorem c1_pool_no_blank_entries (envv : EnvVars) (ck : Option String) (k : String)
    (hk : k ∈ allKeys envv ck) : k ≠ "" := by
  unfold allKeys at hk
  rcases List.mem_append.mp hk with hmem | hmem
  · unfold getEnvKeys at hmem
    have := List.of_mem_filter hmem
    simpa using this
  · exact parseClientKeys_no_blank ck k hmem

theorem c1_pool_no_blank_entries_witness : ("a" : String) ≠ "" :=
  c1_pool_no_blank_entries ⟨some "a", none⟩ none "a" (by decide)

/-- C2 counterexample: `prompts = "42"` is present and is decodable JSON
that is not an array of strings, yet the handler does not fail with
MalformedPromptList: it runs the batch and returns a 200 BatchResult (the
default prompt substitutes for every item). -/
theorem c2_malformed_counterexample :
    POST ⟨some "k1", none⟩
        ⟨[⟨"a.png", "image/png"⟩], some "42", none, none, none⟩
        (fun _ => envOkFixture)
      = HandlerResult.ok [⟨"a.png", dfltPromptLit, some "A trumpet", none⟩] := by
  rfl

/-- C2 (amended): with a non-empty image list, a `prompts` field that is
present but is not decodable JSON yields the MalformedPromptList 400 error
and no BatchResult; decodable JSON that is not an array of strings is not
rejected (see the counterexample). -/
theorem c2_malformed_prompts (envv : EnvVars) (req : RequestData)
    (envs : Nat → ItemEnv) (s : String)
    (hf : req.files ≠ [])
    (hs : req.promptsField = some s)
    (hp : jsonParse s = none) :
    POST envv req envs = HandlerResult.badRequest malformedPromptsMsg := by
  unfold POST
  rw [if_neg hf, hs]
  simp [hp]

theorem c2_malformed_prompts_witness :
    POST ⟨some "k1", none⟩
        ⟨[⟨"a.png", "image/png"⟩], some "not json", none, none, none⟩
        (fun _ => envOkFixture)
      = HandlerResult.badRequest malformedPromptsMsg :=
  c2_malformed_prompts _ _ _ "not json" (by decide) rfl (by rfl)

/-- C3: for every valid batch — non-empty file list, a `prompts` field that
decodes to a JSON array of strings (or is absent), and a non-empty
credential pool — the handler returns a 200 BatchResult with exactly one
entry per input image, in input order, each entry carrying that image's
filename and its effective prompt. -/
theorem c3_batch_shape (envv : EnvVars) (req : RequestData) (envs : Nat → ItemEnv)
    (ss : List String)
    (hf : req.files ≠ [])
    (hp : jsonParse (req.promptsField.getD "[]") = some (Json.arr (ss.map Json.str)))
    (hk : allKeys envv req.apiKeysField ≠ []) :
    ∃ rs, POST envv req envs = HandlerResult.ok rs ∧
      rs.length = req.files.length ∧
      rs.map ResultEntry.filename = req.files.map FileData.name ∧
      rs.map ResultEntry.prompt = (List.range req.files.length).map
        (fun j => effectivePrompt ss j (resolveField req.defaultPromptField dfltPromptLit)) := by
  obtain ⟨rs, h1, h2, h3⟩ := runLoop_arr_strings ss
    (resolveField req.defaultPromptField dfltPromptLit) envs req.files 0
  refine ⟨rs, ?_, ?_, h2, ?_⟩
  · unfold POST
    rw [if_neg hf, hp]
    simp only [if_neg hk]
    rw [h1]
  · have := congrArg List.length h2
    simpa using this
  · rw [List.range_eq_range']
    exact h3

theorem c3_batch_shape_witness :
    ∃ rs, POST ⟨some "k1", none⟩
        ⟨[⟨"a.png", "image/png"⟩, ⟨"b.png", "image/png"⟩],
          some "[\"What color is this?\"]", none, none, none⟩
        (fun _ => envOkFixture)
      = HandlerResult.ok rs ∧
      rs.length = 2 ∧
      rs.map ResultEntry.filename = ["a.png", "b.png"] ∧
      rs.map ResultEntry.prompt = (List.range 2).map
        (fun j => effectivePrompt ["What color is this?"] j dfltPromptLit) :=
  c3_batch_shape ⟨some "k1", none⟩ _ _ ["What color is this?"]
    (by decide) (by rfl) (by decide)

/-- C4: every ResultEntry of a produced batch has exactly one of `text` and
`error` set: successes carry `text` and no `error`, failures carry `error`
and no `text`. -/
theorem c4_text_error_exclusive (pj : Json) (dflt : String) (envs : Nat → ItemEnv)
    (files : List FileData) (k : Nat) (rs : List ResultEntry) (e : ResultEntry)
    (hr : (runLoop pj dflt envs k files).1 = some rs) (he : e ∈ rs) :
    (e.text.isSome ∧ e.error = none) ∨ (e.text = none ∧ e.error.isSome) := by
  induction files generalizing k rs with
  | nil =>
    simp only [runLoop] at hr
    cases hr
    cases he
  | cons f fs ih =>
    cases hp : resolvePrompt pj k dflt with
    | none =>
      rw [runLoop_fst_cons_none _ _ _ _ _ _ hp] at hr
      cases hr
    | some p =>
      rw [runLoop_fst_cons_some _ _ _ _ _ _ _ hp] at hr
      rcases ho : (runLoop pj dflt envs (k + 1) fs).1 with _ | rs0
      · rw [ho] at hr
        cases hr
      · rw [ho] at hr
        simp only [Option.map_some'] at hr
        cases hr
        rcases List.mem_cons.mp he with rfl | he'
        · exact (itemEntry_shape f p (envs k)).2.2
        · exact ih (k + 1) rs0 ho he'

theorem c4_text_error_exclusive_witness :
    (((⟨"a.png", "d", some "A trumpet", none⟩ : ResultEntry).text.isSome ∧
        (⟨"a.png", "d", some "A trumpet", none⟩ : ResultEntry).error = none) ∨
      ((⟨"a.png", "d", some "A trumpet", none⟩ : ResultEntry).text = none ∧
        (⟨"a.png", "d", some "A trumpet", none⟩ : ResultEntry).error.isSome)) :=
  c4_text_error_exclusive (Json.arr []) "d" (fun _ => envOkFixture)
    [⟨"a.png", "image/png"⟩] 0 [⟨"a.png", "d", some "A trumpet", none⟩]
    ⟨"a.png", "d", some "A trumpet", none⟩ (by rfl) (by decide)

lemma itemEntry_error_of_fail (f : FileData) (p : String) (env : ItemEnv)
    (hfail : (∃ t, env.upload = Except.error t) ∨ (∃ t, env.gen = Except.error t)) :
    (itemEntry f p env).text = none ∧ (itemEntry f p env).error.isSome := by
  obtain ⟨u, st, up, g, o⟩ := env
  unfold itemEntry
  cases st with
  | error t => simp [errEntry]
  | ok _ =>
    cases up with
    | error t => simp [errEntry]
    | ok upr =>
      rcases hfail with ⟨t, ht⟩ | ⟨t, ht⟩
      · simp at ht
      · simp only at ht
        by_cases h : refUsable (mkFileRef upr f.type) = true
        · simp only [h, if_true]
          rw [ht]
          simp [errEntry]
        · simp [h, errEntry]

lemma runLoop_get (pj : Json) (dflt : String) (envs : Nat → ItemEnv) :
    ∀ (files : List FileData) (k : Nat) (rs : List ResultEntry),
      (runLoop pj dflt envs k files).1 = some rs →
      ∀ j, j < files.length →
        ∃ f p, files.get? j = some f ∧ resolvePrompt pj (k + j) dflt = some p ∧
          rs.get? j = some (itemEntry f p (envs (k + j))) := by
  intro files
  induction files with
  | nil =>
    intro k rs _ j hj
    simp at hj
  | cons f fs ih =>
    intro k rs hr j hj
    cases hp : resolvePrompt pj k dflt with
    | none =>
      rw [runLoop_fst_cons_none _ _ _ _ _ _ hp] at hr
      cases hr
    | some p =>
      rw [runLoop_fst_cons_some _ _ _ _ _ _ _ hp] at hr
      rcases ho : (runLoop pj dflt envs (k + 1) fs).1 with _ | rs0
      · rw [ho] at hr
        cases hr
      · rw [ho] at hr
        simp only [Option.map_some'] at hr
        cases hr
        cases j with
        | zero => exact ⟨f, p, rfl, by simpa using hp, rfl⟩
        | succ j' =>
          have hj' : j' < fs.length := by simpa using hj
          obtain ⟨f', p', h1, h2, h3⟩ := ih (k + 1) rs0 ho j' hj'
          have hkj : k + (j' + 1) = (k + 1) + j' := by omega
          refine ⟨f', p', by simpa using h1, ?_, ?_⟩
          · rw [hkj]
            exact h2
          · rw [hkj]
            simpa using h3

/-- C5: item-level failures are isolated.  If two oracle assignments agree
everywhere except at item `i` (for example, item `i`'s upload or generation
failing in one and succeeding in the other), both runs return an
HTTP-success BatchResult of the same length whose entries at every index
other than `i` are identical; and when item `i`'s upload or generation call
fails, the ResultEntry at index `i` carries an error string and no text. -/
theorem c5_item_isolation (envv : EnvVars) (req : RequestData)
    (envs envs' : Nat → ItemEnv) (i : Nat) (pj : Json) (rs : List ResultEntry)
    (hagree : ∀ j, j ≠ i → envs j = envs' j)
    (hf : req.files ≠ [])
    (hp : jsonParse (req.promptsField.getD "[]") = some pj)
    (hk : allKeys envv req.apiKeysField ≠ [])
    (hrun : (runLoop pj (resolveField req.defaultPromptField dfltPromptLit)
        envs 0 req.files).1 = some rs) :
    ∃ rs', POST envv req envs = HandlerResult.ok rs ∧
      POST envv req envs' = HandlerResult.ok rs' ∧
      rs.length = rs'.length ∧
      (∀ j, j ≠ i → rs.get? j = rs'.get? j) ∧
      (i < req.files.length →
        ((∃ t, (envs i).upload = Except.error t) ∨ (∃ t, (envs i).gen = Except.error t)) →
        ∃ e, rs.get? i = some e ∧ e.text = none ∧ e.error.isSome) := by
  obtain ⟨hiff, hsome⟩ := runLoop_agree pj
    (resolveField req.defaultPromptField dfltPromptLit) envs envs' i hagree req.files 0
  rcases ho' : (runLoop pj (resolveField req.defaultPromptField dfltPromptLit)
      envs' 0 req.files).1 with _ | rs'
  · have := hiff.mpr ho'
    rw [hrun] at this
    cases this
  · obtain ⟨hl, hget⟩ := hsome rs rs' hrun ho'
    refine ⟨rs', ?_, ?_, hl, ?_, ?_⟩
    · unfold POST
      rw [if_neg hf, hp]
      simp only [if_neg hk]
      rw [hrun]
    · unfold POST
      rw [if_neg hf, hp]
      simp only [if_neg hk]
      rw [ho']
    · intro j hj
      exact hget j (by omega)
    · intro hi hfail
      obtain ⟨f, pr, h1, h2, h3⟩ := runLoop_get pj
        (resolveField req.defaultPromptField dfltPromptLit) envs req.files 0 rs hrun i hi
      rw [Nat.zero_add] at h3
      obtain ⟨hx, hy⟩ := itemEntry_error_of_fail f pr (envs i) hfail
      exact ⟨itemEntry f pr (envs i), h3, hx, hy⟩

theorem c5_item_isolation_witness :
    ∃ rs', POST ⟨some "k1", none⟩
        ⟨[⟨"a.png", "image/png"⟩, ⟨"b.png", "image/png"⟩], none, none, none, none⟩
        (fun j => if j = 1 then envFailFixture else envOkFixture)
      = HandlerResult.ok
          [⟨"a.png", dfltPromptLit, some "A trumpet", none⟩,
            ⟨"b.png", dfltPromptLit, none, some "boom"⟩] ∧
      POST ⟨some "k1", none⟩
        ⟨[⟨"a.png", "image/png"⟩, ⟨"b.png", "image/png"⟩], none, none, none, none⟩
        (fun _ => envOkFixture)
      = HandlerResult.ok rs' ∧
      ([⟨"a.png", dfltPromptLit, some "A trumpet", none⟩,
          ⟨"b.png", dfltPromptLit, none, some "boom"⟩] : List ResultEntry).length
        = rs'.length ∧
      (∀ j, j ≠ 1 →
        ([⟨"a.png", dfltPromptLit, some "A trumpet", none⟩,
            ⟨"b.png", dfltPromptLit, none, some "boom"⟩] : List ResultEntry).get? j
          = rs'.get? j) ∧
      (1 < ([⟨"a.png", "image/png"⟩, ⟨"b.png", "image/png"⟩] : List FileData).length →
        ((∃ t, envFailFixture.upload = Except.error t) ∨
          (∃ t, envFailFixture.gen = Except.error t)) →
        ∃ e, ([⟨"a.png", dfltPromptLit, some "A trumpet", none⟩,
            ⟨"b.png", dfltPromptLit, none, some "boom"⟩] : List ResultEntry).get? 1 = some e ∧
          e.text = none ∧ e.error.isSome) :=
  c5_item_isolation ⟨some "k1", none⟩ _
    (fun j => if j = 1 then envFailFixture else envOkFixture)
    (fun _ => envOkFixture) 1 (Json.arr []) _
    (fun j hj => by simp [hj]) (by decide) (by rfl) (by decide) (by rfl)

/-- C6 counterexample: the item prompt " hi " is non-blank after trimming,
but the effective prompt recorded and used is the trimmed string "hi", not
the item's own prompt " hi ". -/
theorem c6_prompt_counterexample :
    resolvePrompt (Json.arr [Json.str " hi "]) 0 "d" = some "hi" ∧
      (" hi " : String) ≠ "hi" := ⟨rfl, by decide⟩

/-- C6 (amended): the effective prompt of item `i` is the item's own prompt
trimmed of surrounding whitespace when that is non-blank, and otherwise the
batch default prompt; the default itself is the trimmed `defaultPrompt`
field, falling back to the fixed literal when the field is unset or blank
after trimming. -/
theorem c6_effective_prompt :
    (∀ (ss : List String) (dflt : String) (i : Nat) (file : FileData) (env : ItemEnv),
      ((processItem (Json.arr (ss.map Json.str)) dflt i file env).1).map ResultEntry.prompt
        = some (effectivePrompt ss i dflt)) ∧
    (∀ (ss : List String) (i : Nat) (dflt s : String),
      ss.get? i = some s → jsTrim s ≠ "" → effectivePrompt ss i dflt = jsTrim s) ∧
    (∀ (ss : List String) (i : Nat) (dflt s : String),
      ss.get? i = some s → jsTrim s = "" → effectivePrompt ss i dflt = dflt) ∧
    (∀ (ss : List String) (i : Nat) (dflt : String),
      ss.get? i = none → effectivePrompt ss i dflt = dflt) ∧
    (∀ lit : String, resolveField none lit = lit) ∧
    (∀ s lit : String, jsTrim s = "" → resolveField (some s) lit = lit) ∧
    (∀ s lit : String, jsTrim s ≠ "" → resolveField (some s) lit = jsTrim s) := by
  refine ⟨?_, ?_, ?_, ?_, fun lit => rfl, ?_, ?_⟩
  · intro ss dflt i file env
    rw [processItem_fst, resolvePrompt_strings]
    simp [(itemEntry_shape file (effectivePrompt ss i dflt) env).2.1]
  · intro ss i dflt s h1 h2
    unfold effectivePrompt
    rw [h1]
    simp [h2]
  · intro ss i dflt s h1 h2
    unfold effectivePrompt
    rw [h1]
    simp [h2]
  · intro ss i dflt h1
    unfold effectivePrompt
    rw [h1]
  · intro s lit h
    unfold resolveField
    simp [h]
  · intro s lit h
    unfold resolveField
    simp [h]

theorem c6_effective_prompt_witness :
    ((processItem (Json.arr [Json.str "What color is this?"]) "Describe" 0
        ⟨"a.png", "image/png"⟩ envOkFixture).1).map ResultEntry.prompt
      = some (effectivePrompt ["What color is this?"] 0 "Describe") ∧
    effectivePrompt ["What color is this?"] 0 "Describe" = jsTrim "What color is this?" ∧
    effectivePrompt [""] 0 "Describe" = "Describe" ∧
    resolveField (some "  ") dfltPromptLit = dfltPromptLit :=
  ⟨c6_effective_prompt.1 ["What color is this?"] "Describe" 0 ⟨"a.png", "image/png"⟩ envOkFixture,
    c6_effective_prompt.2.1 ["What color is this?"] 0 "Describe" "What color is this?"
      rfl (by decide),
    c6_effective_prompt.2.2.1 [""] 0 "Describe" "" rfl rfl,
    c6_effective_prompt.2.2.2.2.2.1 "  " dfltPromptLit rfl⟩

/-- C7: text extraction tolerates a direct string value, a callable
accessor, and nested fragments under either of the two response envelopes;
nested fragments are normalized by newline-joining the non-empty ones
(["Hello", "", "World"] gives "Hello\nWorld"), and a response with no
extractable text — including an absent response — gives the empty
string. -/
theorem c7_ensure_text :
    ensureText none = "" ∧
    ensureText (some ⟨none, none, none⟩) = "" ∧
    (∀ (s : String) (re : Option ResponseEnvelope) (cs : Option (List GeminiCandidate)),
      ensureText (some ⟨some (TextField.strVal s), re, cs⟩) = s) ∧
    (∀ (s : String) (re : Option ResponseEnvelope) (cs : Option (List GeminiCandidate)),
      ensureText (some ⟨some (TextField.fnVal s), re, cs⟩) = s) ∧
    (∀ parts : List GeminiContentPart,
      ensureText (some ⟨none, some ⟨some [⟨some ⟨some parts⟩⟩]⟩, none⟩)
        = String.intercalate "\n"
            ((parts.map (fun pt => pt.text.getD "")).filter (fun s => s ≠ ""))) ∧
    (∀ parts : List GeminiContentPart,
      ensureText (some ⟨none, none, some [⟨some ⟨some parts⟩⟩]⟩)
        = String.intercalate "\n"
            ((parts.map (fun pt => pt.text.getD "")).filter (fun s => s ≠ ""))) ∧
    ensureText (some ⟨none, some ⟨some [⟨some ⟨some
        [⟨some "Hello"⟩, ⟨some ""⟩, ⟨some "World"⟩]⟩⟩]⟩, none⟩) = "Hello\nWorld" := by
  exact ⟨rfl, rfl, fun s re cs => rfl, fun s re cs => rfl,
    fun parts => rfl, fun parts => rfl, rfl⟩

/-- C8 counterexample: an upload response with no usable reference makes
the item fail, but the error string recorded in the ResultEntry is the
route's Thai literal, not "unable to upload file to the generation
service". -/
theorem c8_upload_message_counterexample :
    ((processItem (Json.arr []) "d" 0 ⟨"a.png", "image/png"⟩
          ⟨"u1", Except.ok (), Except.ok ⟨none, none, none⟩, Except.ok none, true⟩).1.bind
        ResultEntry.error)
      = some "ไม่สามารถอัปโหลดไฟล์ไปยัง Gemini ได้" ∧
    ("ไม่สามารถอัปโหลดไฟล์ไปยัง Gemini ได้" : String)
      ≠ "unable to upload file to the generation service" := ⟨rfl, by decide⟩

/-- C8 (amended): when the upload call returns but the assembled asset
reference lacks a usable URI or media type, the item fails with the fixed
literal "ไม่สามารถอัปโหลดไฟล์ไปยัง Gemini ได้" (the localized equivalent of
"unable to upload file to the generation service"), and that literal is the
`error` field of the item's ResultEntry. -/
theorem c8_upload_failure (pj : Json) (dflt : String) (i : Nat) (file : FileData)
    (env : ItemEnv) (up : UploadResponse) (p : String)
    (hp : resolvePrompt pj i dflt = some p)
    (hs : env.stage = Except.ok ())
    (hu : env.upload = Except.ok up)
    (href : refUsable (mkFileRef up file.type) = false) :
    (processItem pj dflt i file env).1
      = some ⟨file.name, p, none, some uploadFailMsg⟩ := by
  rw [processItem_fst, hp]
  simp only [Option.map_some']
  unfold itemEntry
  rw [hs, hu]
  simp [href, errEntry, thrownMessage]

theorem c8_upload_failure_witness :
    (processItem (Json.arr []) "d" 0 ⟨"a.png", "image/png"⟩
        ⟨"u1", Except.ok (), Except.ok ⟨some ⟨none, some "image/png"⟩, none, none⟩,
          Except.ok none, true⟩).1
      = some ⟨"a.png", "d", none, some uploadFailMsg⟩ :=
  c8_upload_failure (Json.arr []) "d" 0 ⟨"a.png", "image/png"⟩
    ⟨"u1", Except.ok (), Except.ok ⟨some ⟨none, some "image/png"⟩, none, none⟩,
      Except.ok none, true⟩
    ⟨some ⟨none, some "image/png"⟩, none, none⟩ "d" rfl rfl rfl (by decide)

/-- C9: for every item, removal of the item's staging file is the last
filesystem action of that item's iteration whatever the outcome of the
staging, upload and generation steps; iterations contribute their events in
order, so the removal precedes the next item's processing; and the outcome
of the removal itself (`unlinkOk`) never changes the handler's response. -/
theorem c9_cleanup (envv : EnvVars) (req : RequestData) (envs : Nat → ItemEnv)
    (b : Nat → Bool) (pj : Json) (dflt p : String) (i : Nat) (file : FileData)
    (env : ItemEnv) (fs : List FileData)
    (hp : resolvePrompt pj i dflt = some p) :
    POST envv req (fun j => { envs j with unlinkOk := b j }) = POST envv req envs ∧
    (processItem pj dflt i file env).2.getLast?
      = some (FsEvent.unlink (tmpPathOf env.uuid file.name)) ∧
    (runLoop pj dflt envs i (file :: fs)).2
      = (processItem pj dflt i file (envs i)).2 ++ (runLoop pj dflt envs (i + 1) fs).2 := by
  refine ⟨POST_unlink envv req envs b, ?_, ?_⟩
  · unfold processItem
    rw [hp]
    cases hst : env.stage <;> simp
  · have h1 := processItem_fst pj dflt i file (envs i)
    rw [hp] at h1
    simp only [Option.map_some'] at h1
    simp [runLoop, h1]

theorem c9_cleanup_witness :
    (processItem (Json.arr []) "d" 0 ⟨"a.png", "image/png"⟩ envOkFixture).2.getLast?
      = some (FsEvent.unlink (tmpPathOf "u1" "a.png")) :=
  (c9_cleanup ⟨none, none⟩ ⟨[], none, none, none, none⟩ (fun _ => envOkFixture)
    (fun _ => true) (Json.arr []) "d" "d" 0 ⟨"a.png", "image/png"⟩ envOkFixture [] rfl).2.1

/-- C10 counterexample: in the wrapped response shape, an upload response
carrying a usable URI but no media type fails the item even though the
file's own type ("image/png") is non-blank: the file-type substitution does
not apply to the wrapped shape. -/
theorem c10_mime_counterexample :
    ((processItem (Json.arr []) "d" 0 ⟨"b.png", "image/png"⟩
          ⟨"u2", Except.ok (),
            Except.ok ⟨some ⟨some "gs://asset", none⟩, none, none⟩,
            Except.ok (some ⟨some (TextField.strVal "A trumpet"), none, none⟩), true⟩).1.bind
        ResultEntry.error)
      = some uploadFailMsg := rfl

/-- C10 (amended): only in the flat response shape does a usable URI with
an absent media type avoid failure: the item's own (non-blank) file type is
substituted as the asset reference's media type and processing proceeds to
the generation call; in the wrapped shape a missing media type fails the
upload step regardless of the file's type (see the counterexample). -/
theorem c10_flat_mime_fallback (pj : Json) (dflt : String) (i : Nat) (file : FileData)
    (env : ItemEnv) (u : String) (resp : Option GeminiResponse) (p : String)
    (hp : resolvePrompt pj i dflt = some p)
    (hs : env.stage = Except.ok ())
    (hu : env.upload = Except.ok ⟨none, some u, none⟩)
    (hne : u ≠ "")
    (ht : file.type ≠ "")
    (hg : env.gen = Except.ok resp) :
    mkFileRef ⟨none, some u, none⟩ file.type = ⟨some u, some file.type⟩ ∧
    (processItem pj dflt i file env).1
      = some ⟨file.name, p, some (ensureText resp), none⟩ := by
  refine ⟨rfl, ?_⟩
  rw [processItem_fst, hp]
  simp only [Option.map_some']
  unfold itemEntry
  rw [hs, hu, hg]
  simp [mkFileRef, refUsable, truthyOpt, hne, ht]

theorem c10_flat_mime_fallback_witness :
    mkFileRef ⟨none, some "gs://asset", none⟩ "image/png"
      = ⟨some "gs://asset", some "image/png"⟩ ∧
    (processItem (Json.arr []) "d" 0 ⟨"a.png", "image/png"⟩
        ⟨"u1", Except.ok (), Except.ok ⟨none, some "gs://asset", none⟩,
          Except.ok (some ⟨some (TextField.strVal "A trumpet"), none, none⟩), true⟩).1
      = some ⟨"a.png", "d", some "A trumpet", none⟩ :=
  c10_flat_mime_fallback (Json.arr []) "d" 0 ⟨"a.png", "image/png"⟩
    ⟨"u1", Except.ok (), Except.ok ⟨none, some "gs://asset", none⟩,
      Except.ok (some ⟨some (TextField.strVal "A trumpet"), none, none⟩), true⟩
    "gs://asset" (some ⟨some (TextField.strVal "A trumpet"), none, none⟩) "d"
    rfl rfl rfl (by decide) (by decide) rfl
